import Mathlib

/-!
Verification of the marketlinks-functions serverless handlers.

The JavaScript source is embedded shallowly:

* JavaScript numbers are modelled by `JSNum`: finite values are exact
  rationals, with `Infinity`, `-Infinity` and `NaN` tracked explicitly.
  Upstream data arrives through `JSON.parse`, which can only produce finite
  numbers, so raw upstream fields are plain rationals (optional when the
  field may be absent).  Signed zero is not modelled; no claim depends on it.
* Calendar dates (ISO `YYYY-MM-DD` strings in the source) are modelled as
  integers, since the provider uses one canonical string per day and the
  source only ever compares dates for order and equality.
* Network fetches and LLM calls are modelled by passing their outcome as an
  explicit argument to the function that performs them.
-/

namespace MarketLinks

/-- A JavaScript number: either a finite value (idealised as an exact
rational) or one of the IEEE special values. -/
inductive JSNum where
  | num (q : ℚ)
  | inf
  | ninf
  | nan
deriving DecidableEq, Repr

namespace JSNum

/-- JavaScript unary minus. -/
def neg : JSNum → JSNum
  | num q => num (-q)
  | inf => ninf
  | ninf => inf
  | nan => nan

/-- JavaScript addition. -/
def add : JSNum → JSNum → JSNum
  | nan, _ => nan
  | _, nan => nan
  | inf, ninf => nan
  | ninf, inf => nan
  | inf, _ => inf
  | _, inf => inf
  | ninf, _ => ninf
  | _, ninf => ninf
  | num a, num b => num (a + b)

/-- JavaScript subtraction, as addition of the negation. -/
def sub (a b : JSNum) : JSNum := add a (neg b)

/-- JavaScript multiplication. -/
def mul : JSNum → JSNum → JSNum
  | nan, _ => nan
  | _, nan => nan
  | num a, num b => num (a * b)
  | inf, inf => inf
  | inf, ninf => ninf
  | ninf, inf => ninf
  | ninf, ninf => inf
  | inf, num b => if 0 < b then inf else if b < 0 then ninf else nan
  | num a, inf => if 0 < a then inf else if a < 0 then ninf else nan
  | ninf, num b => if 0 < b then ninf else if b < 0 then inf else nan
  | num a, ninf => if 0 < a then ninf else if a < 0 then inf else nan

/-- JavaScript division.  Division of a nonzero finite value by zero gives a
signed infinity; `0 / 0` gives `NaN`. -/
def div : JSNum → JSNum → JSNum
  | nan, _ => nan
  | _, nan => nan
  | num a, num b =>
      if b = 0 then (if 0 < a then inf else if a < 0 then ninf else nan)
      else num (a / b)
  | num _, inf => num 0
  | num _, ninf => num 0
  | inf, num b => if 0 ≤ b then inf else ninf
  | ninf, num b => if 0 ≤ b then ninf else inf
  | inf, inf => nan
  | inf, ninf => nan
  | ninf, inf => nan
  | ninf, ninf => nan

/-- JavaScript strict less-than; any comparison with `NaN` is false. -/
def lt : JSNum → JSNum → Bool
  | nan, _ => false
  | _, nan => false
  | num a, num b => decide (a < b)
  | num _, inf => true
  | num _, ninf => false
  | inf, _ => false
  | ninf, inf => true
  | ninf, num _ => true
  | ninf, ninf => false

/-- JavaScript strict greater-than. -/
def gt (a b : JSNum) : Bool := lt b a

/-- JavaScript truthiness of a number: `0` and `NaN` are falsy. -/
def truthy : JSNum → Bool
  | num q => decide (q ≠ 0)
  | nan => false
  | _ => true

/-- JavaScript `Math.abs`. -/
def abs : JSNum → JSNum
  | num q => num |q|
  | nan => nan
  | _ => inf

end JSNum

open JSNum

/-- Coercion used when an optional (possibly `null`) numeric field enters a
numeric comparison: JavaScript converts `null` to `0`. -/
def jsValNum : Option JSNum → JSNum
  | some x => x
  | none => num 0

/-- The comparison `v < c` between an optional numeric field and a literal. -/
def jsLtVal (v : Option JSNum) (c : ℚ) : Bool := JSNum.lt (jsValNum v) (num c)

/-- The comparison `v > c` between an optional numeric field and a literal. -/
def jsGtVal (v : Option JSNum) (c : ℚ) : Bool := JSNum.gt (jsValNum v) (num c)

/-- The idiom `x || 0` on a finite number: the value itself unless it is
falsy (that is, zero), in which case `0`; extensionally the identity. -/
def jsOrZero (q : ℚ) : ℚ := if q ≠ 0 then q else 0

/-- The idiom `a || b` between an optional finite number and a default. -/
def jsOrQ (a : Option ℚ) (b : ℚ) : ℚ :=
  match a with
  | some v => if v ≠ 0 then v else b
  | none => b

/-- Coercion of a possibly absent (`undefined`) finite value into arithmetic:
JavaScript converts `undefined` to `NaN`. -/
def jsNumOf : Option ℚ → JSNum
  | some q => num q
  | none => nan

/-- The idiom `a || d` between an optional finite field and a `JSNum`
default, as in `currentQuote?.yearHigh || Math.max(...closePrices)`. -/
def jsOrQJS (a : Option ℚ) (d : JSNum) : JSNum :=
  match a with
  | some v => if v ≠ 0 then num v else d
  | none => d

/-- The result of `parseFloat(x.toFixed(2))`: rounding to two decimals,
half away from zero resolved upward as ECMAScript `toFixed` prescribes. -/
def round2 (q : ℚ) : ℚ := (⌊q * 100 + 1 / 2⌋ : ℚ) / 100

/-- The result of `parseFloat(x.toFixed(1))`: rounding to one decimal. -/
def round1 (q : ℚ) : ℚ := (⌊q * 10 + 1 / 2⌋ : ℚ) / 10

/-- Lift of `toFixed(2)` followed by `parseFloat` to `JSNum`. -/
def jsToFixed2 : JSNum → JSNum
  | num q => num (round2 q)
  | x => x

/-- Lift of `toFixed(1)` followed by `parseFloat` to `JSNum`. -/
def jsToFixed1 : JSNum → JSNum
  | num q => num (round1 q)
  | x => x

/-- Semantics of `Math.max(...list)`: `-Infinity` on the empty list. -/
def jsMaxList : List ℚ → JSNum
  | [] => ninf
  | q :: qs => num (qs.foldl max q)

/-- Semantics of `Math.min(...list)`: `Infinity` on the empty list. -/
def jsMinList : List ℚ → JSNum
  | [] => inf
  | q :: qs => num (qs.foldl min q)

/-! ## Technical indicator engine (fetch-stock-ai-rating.js, second handler) -/

/-- The list of consecutive price changes `prices[i] - prices[i-1]`, as
computed inside `calculateRSI`. -/
def priceChanges (prices : List ℚ) : List ℚ :=
  List.zipWith (fun b a => b - a) prices.tail prices

/-- One iteration of the Wilder smoothing loop of `calculateRSI`:
`avg = (avg * (period - 1) + current) / period` for the gain and the loss. -/
def wilderStep (period : ℚ) (acc : ℚ × ℚ) (change : ℚ) : ℚ × ℚ :=
  ((acc.1 * (period - 1) + (if 0 ≤ change then change else 0)) / period,
   (acc.2 * (period - 1) + (if 0 ≤ change then 0 else -change)) / period)

/-- The final two lines of each RSI iteration:
`rs = avgGain / avgLoss; rsi = 100 - (100 / (1 + rs))`, with JavaScript
division semantics (so `avgLoss = 0` gives `Infinity` or `NaN`). -/
def rsiOf (avgGain avgLoss : ℚ) : JSNum :=
  JSNum.sub (num 100)
    (JSNum.div (num 100) (JSNum.add (num 1) (JSNum.div (num avgGain) (num avgLoss))))

/-- Source function `technicalIndicators.calculateRSI(prices, period)`.
Returns `null` when
fewer than `period + 1` prices are given; otherwise seeds the averages from
the first `period` changes and folds the Wilder smoothing step over the
remaining changes, returning the last RSI value (which is a function of the
final pair of averages). -/
def calculateRSI (prices : List ℚ) (period : ℕ) : Option JSNum :=
  if prices.length < period + 1 then none
  else
    let changes := priceChanges prices
    let seed := changes.take period
    let gains := (seed.map (fun c => if 0 ≤ c then c else 0)).sum
    let losses := (seed.map (fun c => if 0 ≤ c then 0 else -c)).sum
    let start : ℚ × ℚ := (gains / (period : ℚ), losses / (period : ℚ))
    let final := (changes.drop period).foldl (wilderStep (period : ℚ)) start
    some (rsiOf final.1 final.2)

/-- Source function `technicalIndicators.calculateMA(prices, period)`: mean of the last
`period` closes, `null` when fewer than `period` prices exist. -/
def calculateMA (prices : List ℚ) (period : ℕ) : Option ℚ :=
  if prices.length < period then none
  else some ((prices.drop (prices.length - period)).sum / (period : ℚ))

/-- Safe index into a list of finite numbers; out of range is `undefined`. -/
def jsIdx (l : List ℚ) (i : ℤ) : Option ℚ :=
  if 0 ≤ i then l[i.toNat]? else none

/-- The first textual definition of `calculatePercentChange` (reads the most
recent price from index 0 of the newest-first array, guard
`length >= days + 1`).  Shadowed by the later definition under JavaScript
function hoisting. -/
def calculatePercentChangeFirst (prices : List ℚ) (days : ℕ) : Option JSNum :=
  if prices.length < days + 1 then none
  else
    let recent := jsIdx prices 0
    let past := jsIdx prices days
    some (JSNum.mul (JSNum.div (JSNum.sub (jsNumOf recent) (jsNumOf past)) (jsNumOf past))
      (num 100))

/-- The second textual definition of `calculatePercentChange` (reads the most
recent price from index `length - 1`, guard `length >= days`).  When
`length = days` the read at index `length - 1 - days = -1` yields `undefined`
and the arithmetic produces `NaN`. -/
def calculatePercentChangeSecond (prices : List ℚ) (days : ℕ) : Option JSNum :=
  if prices.length < days then none
  else
    let recent := jsIdx prices ((prices.length : ℤ) - 1)
    let past := jsIdx prices ((prices.length : ℤ) - 1 - days)
    some (JSNum.mul (JSNum.div (JSNum.sub (jsNumOf recent) (jsNumOf past)) (jsNumOf past))
      (num 100))

/-- The `calculatePercentChange` binding in effect at call sites: the second
textual definition wins under JavaScript function hoisting. -/
def calculatePercentChange (prices : List ℚ) (days : ℕ) : Option JSNum :=
  calculatePercentChangeSecond prices days

/-! ## Price history extraction and merge -/

/-- A price bar as mapped by the source: `{date, close, volume}`. -/
structure PriceBar where
  date : ℤ
  close : ℚ
  volume : ℚ
deriving DecidableEq, Repr

/-- The fields of the live quote used by `extractPriceHistory` and
`extractEssentialQuoteData`. -/
structure Quote where
  price : ℚ
  volume : Option ℚ
  yearHigh : Option ℚ
  yearLow : Option ℚ
deriving DecidableEq, Repr

/-- The decorated array returned by `extractPriceHistory`: the bars plus the
`high52Week` and `low52Week` properties set on the array.  The early return
for missing historical data returns a bare array, on which those properties
are `undefined`, hence the `Option`. -/
structure PriceHistoryResult where
  bars : List PriceBar
  high52Week : Option JSNum
  low52Week : Option JSNum
deriving DecidableEq, Repr

/-- The sort comparator `(a, b) => new Date(b.date) - new Date(a.date)`:
newest first, that is, descending by date. -/
def dateGe (a b : PriceBar) : Prop := b.date ≤ a.date

instance : DecidableRel dateGe := fun a b => inferInstanceAs (Decidable (b.date ≤ a.date))

instance : IsTotal PriceBar dateGe := ⟨fun a b => le_total b.date a.date⟩

instance : IsTrans PriceBar dateGe := ⟨fun _ _ _ h h' => le_trans h' h⟩

/-- The volume of the synthesized leading bar:
`currentQuote.volume || (result.length > 0 ? result[0].volume : 0)`. -/
def quoteBarVolume (qv : Option ℚ) (sorted : List PriceBar) : ℚ :=
  jsOrQ qv (match sorted with
    | [] => 0
    | b :: _ => b.volume)

/-- The merge of the sorted historical bars with the live quote (the body of
the `if (currentQuote && currentQuote.price)` block of
`extractPriceHistory`). -/
def mergeQuote (sorted : List PriceBar) (q : Quote) (today : ℤ) : List PriceBar :=
  match sorted with
  | [] => [⟨today, q.price, quoteBarVolume q.volume []⟩]
  | b :: rest =>
      if b.date ≠ today then
        ⟨today, q.price, quoteBarVolume q.volume (b :: rest)⟩ :: b :: rest
      else if |b.close - q.price| > 1 / 100 then
        ⟨b.date, q.price, jsOrQ q.volume b.volume⟩ :: rest
      else b :: rest

/-- Source function `extractPriceHistory(priceData, currentQuote)`.
Here `priceData` is `none`
when the response or its `historical` field is missing (the early return of
a bare empty array); `today` is the current date, injected for testability.
The historical bars are sorted newest first, merged with the quote when the
quote has a truthy price, and decorated with 52-week high/low. -/
def extractPriceHistory (priceData : Option (List PriceBar)) (currentQuote : Option Quote)
    (today : ℤ) : PriceHistoryResult :=
  match priceData with
  | none => ⟨[], none, none⟩
  | some historical =>
      let sorted := List.insertionSort dateGe historical
      let result :=
        match currentQuote with
        | some q => if q.price ≠ 0 then mergeQuote sorted q today else sorted
        | none => sorted
      let closePrices := result.map (fun day => day.close)
      let high52 := match currentQuote with
        | some q => jsOrQJS q.yearHigh (jsMaxList closePrices)
        | none => jsMaxList closePrices
      let low52 := match currentQuote with
        | some q => jsOrQJS q.yearLow (jsMinList closePrices)
        | none => jsMinList closePrices
      ⟨result, some high52, some low52⟩

/-! ## Technical analysis record -/

/-- The record built by `calculateTechnicals`.  The `lastUpdated` timestamp
string is omitted (never inspected by any logic). -/
structure TechAnalysis where
  rsi : Option JSNum
  sma20 : Option ℚ
  sma50 : Option ℚ
  sma200 : Option ℚ
  priceChange1d : Option JSNum
  priceChange1m : Option JSNum
  priceChange3m : Option JSNum
  volumeChange : Option JSNum
  high52Week : JSNum
  low52Week : JSNum
  distanceFromHigh : JSNum
  distanceFromLow : JSNum
  currentPrice : ℚ
deriving DecidableEq, Repr

/-- Source function `calculateVolumeChange(priceHistory)`: mean volume of the most recent 10
bars versus the preceding 10, as a percentage; `null` below 20 bars. -/
def calculateVolumeChange (priceHistory : List PriceBar) : Option JSNum :=
  if priceHistory.length < 20 then none
  else
    let recentVolume := ((priceHistory.take 10).map (fun day => day.volume)).sum / 10
    let pastVolume := (((priceHistory.drop 10).take 10).map (fun day => day.volume)).sum / 10
    some (JSNum.mul (JSNum.div (num (recentVolume - pastVolume)) (num pastVolume)) (num 100))

/-- The `priceHistory.high52Week || Math.max(...closePrices)` idiom on the
decorated array (`undefined` or falsy property falls back to the maximum). -/
def jsOrProp (p : Option JSNum) (d : JSNum) : JSNum :=
  match p with
  | some v => if JSNum.truthy v then v else d
  | none => d

/-- Source function `calculateTechnicals(priceHistory)`: `null` below 14 bars, otherwise the
locally computed indicator record.  The `closePrices` array is newest first;
RSI is computed on its reversal. -/
def calculateTechnicals (ph : PriceHistoryResult) : Option TechAnalysis :=
  if ph.bars.length < 14 then none
  else
    let closePrices := ph.bars.map (fun day => day.close)
    let currentPrice := closePrices.headD 0
    let high52 := jsOrProp ph.high52Week (jsMaxList closePrices)
    let low52 := jsOrProp ph.low52Week (jsMinList closePrices)
    some
      { rsi := calculateRSI closePrices.reverse 14
        sma20 := calculateMA closePrices 20
        sma50 := calculateMA closePrices 50
        sma200 := calculateMA closePrices (min 200 closePrices.length)
        priceChange1d := calculatePercentChange closePrices 1
        priceChange1m := calculatePercentChange closePrices (min 20 (closePrices.length - 1))
        priceChange3m := calculatePercentChange closePrices (min 60 (closePrices.length - 1))
        volumeChange := calculateVolumeChange ph.bars
        high52Week := high52
        low52Week := low52
        distanceFromHigh :=
          JSNum.mul (JSNum.div (JSNum.sub high52 (num currentPrice)) high52) (num 100)
        distanceFromLow :=
          JSNum.mul (JSNum.div (JSNum.sub (num currentPrice) low52) low52) (num 100)
        currentPrice := currentPrice }

/-! ## Financial snapshot extraction -/

/-- Raw upstream balance sheet row, fields optional (absent JSON keys read
as `undefined`).  The `date` is opaque here. -/
structure BalanceSheetRaw where
  date : ℤ
  cashAndCashEquivalents : Option ℚ
  totalAssets : Option ℚ
  totalLiabilities : Option ℚ
  totalDebt : Option ℚ
  totalCurrentAssets : Option ℚ
  totalCurrentLiabilities : Option ℚ
deriving DecidableEq, Repr

/-- The record built by `extractEssentialBalanceSheet`: source fields passed
through, plus the two derived ratios, computed unguarded with JavaScript
division (so a zero or missing denominator yields `Infinity` or `NaN`). -/
structure EssentialBalanceSheet where
  date : ℤ
  cashAndCashEquivalents : Option ℚ
  totalAssets : Option ℚ
  totalLiabilities : Option ℚ
  totalDebt : Option ℚ
  debtToAssets : JSNum
  currentRatio : JSNum
deriving DecidableEq, Repr

/-- Source function `extractEssentialBalanceSheet(balanceSheet)` from the second stock-rating
handler: `null` passes through; otherwise the ratios are
`totalDebt / totalAssets` and `totalCurrentAssets / totalCurrentLiabilities`
with no denominator guard. -/
def extractEssentialBalanceSheet (balanceSheet : Option BalanceSheetRaw) :
    Option EssentialBalanceSheet :=
  match balanceSheet with
  | none => none
  | some b =>
      some
        { date := b.date
          cashAndCashEquivalents := b.cashAndCashEquivalents
          totalAssets := b.totalAssets
          totalLiabilities := b.totalLiabilities
          totalDebt := b.totalDebt
          debtToAssets := JSNum.div (jsNumOf b.totalDebt) (jsNumOf b.totalAssets)
          currentRatio :=
            JSNum.div (jsNumOf b.totalCurrentAssets) (jsNumOf b.totalCurrentLiabilities) }

/-- The balance-sheet shape of the first (Anthropic) stock-rating handler
response (`fetchedData.balanceSheet`): absent numerators default to `0` via
`|| 0`, and a non-positive denominator maps the whole ratio to `0`. -/
structure RespBalanceSheet where
  date : ℤ
  cashAndCashEquivalents : ℚ
  totalAssets : ℚ
  totalLiabilities : ℚ
  totalDebt : ℚ
  debtToAssets : JSNum
  currentRatio : JSNum
deriving DecidableEq, Repr

/-- The guard `balanceSheet.totalAssets > 0` on an optional field:
`undefined > 0` is false. -/
def jsGtZero (v : Option ℚ) : Bool := JSNum.gt (jsNumOf v) (num 0)

/-- The response shaping of the first stock-rating handler
(`balanceSheet ? {...} : null`). -/
def responseBalanceSheet (balanceSheet : Option BalanceSheetRaw) : Option RespBalanceSheet :=
  match balanceSheet with
  | none => none
  | some b =>
      some
        { date := b.date
          cashAndCashEquivalents := (b.cashAndCashEquivalents).getD 0
          totalAssets := (b.totalAssets).getD 0
          totalLiabilities := (b.totalLiabilities).getD 0
          totalDebt := (b.totalDebt).getD 0
          debtToAssets :=
            if jsGtZero b.totalAssets then
              JSNum.div (jsNumOf b.totalDebt) (jsNumOf b.totalAssets)
            else num 0
          currentRatio :=
            if jsGtZero b.totalCurrentLiabilities then
              JSNum.div (jsNumOf b.totalCurrentAssets) (jsNumOf b.totalCurrentLiabilities)
            else num 0 }

/-- The fields kept by `extractEssentialFinancials`. -/
structure Fundamentals where
  date : ℤ
  revenue : Option ℚ
  netIncome : Option ℚ
  eps : Option ℚ
  ebitda : Option ℚ
  grossProfitRatio : Option ℚ
  operatingIncomeRatio : Option ℚ
  netIncomeRatio : Option ℚ
deriving DecidableEq, Repr

/-- The fields kept by `extractEssentialQuoteData`. -/
structure QuoteEssential where
  price : ℚ
  change : Option ℚ
  changesPercentage : Option ℚ
  volume : Option ℚ
  avgVolume : Option ℚ
deriving DecidableEq, Repr

/-- The aggregated per-symbol data assembled by `fetchOptimizedData` and then
enriched by the handler with `technicalAnalysis`. -/
structure Data where
  fundamentals : Option Fundamentals
  balanceSheet : Option EssentialBalanceSheet
  priceHistory : PriceHistoryResult
  currentQuote : Option QuoteEssential
  technicalAnalysis : Option TechAnalysis
deriving DecidableEq, Repr

/-! ## Recommendation engine -/

/-- A recommendation object.  `recommendation` and `reason` are optional
because a parsed LLM answer may omit them; the deterministic fallback always
sets them.  The `analysisTime` timestamp string is omitted; `note` models the
optional degraded-mode annotation (absent key = `none`). -/
structure Rec where
  recommendation : Option String
  reason : Option String
  targetPrice : JSNum
  upside : JSNum
  confidence : JSNum
  note : Option String
deriving DecidableEq, Repr

/-- The `currentPrice` computed at the top of
`generateFallbackRecommendation`:
`data.priceHistory?.[data.priceHistory.length - 1]?.close || 0`, the close of
the final (oldest, since the array is newest first) element. -/
def fallbackCurrentPrice (data : Data) : ℚ :=
  match data.priceHistory.bars.getLast? with
  | some b => jsOrZero b.close
  | none => 0

/-- The `sma50 || currentPrice * 1.05` default of the HOLD branch. -/
def holdTarget (sma50 : Option ℚ) (currentPrice : ℚ) : ℚ :=
  jsOrQ sma50 (currentPrice * (21 / 20))

/-- Source function `generateFallbackRecommendation(data)`: the deterministic rule-based
recommendation used when the LLM call fails. -/
def generateFallbackRecommendation (data : Data) : Rec :=
  let currentPrice := fallbackCurrentPrice data
  match data.technicalAnalysis with
  | none =>
      { recommendation := some "HOLD"
        reason := some "Insufficient data to make a confident recommendation."
        targetPrice := num currentPrice
        upside := num 0
        confidence := num 30
        note := none }
  | some ta =>
      if jsLtVal ta.rsi 30 && jsLtVal ta.priceChange1m (-5) && jsLtVal ta.priceChange3m 0 then
        { recommendation := some "BUY"
          reason := some "Stock appears oversold with low RSI and recent price decline."
          targetPrice := num (round2 (currentPrice * (23 / 20)))
          upside := num 15
          confidence := num 60
          note := none }
      else if jsGtVal ta.rsi 70 && jsGtVal ta.priceChange1m 10 then
        { recommendation := some "SELL"
          reason := some "Stock appears overbought with high RSI and recent sharp price increase."
          targetPrice := num (round2 (currentPrice * (9 / 10)))
          upside := num (-10)
          confidence := num 60
          note := none }
      else
        let targetPrice := holdTarget ta.sma50 currentPrice
        let upside := JSNum.mul
          (JSNum.sub (JSNum.div (num targetPrice) (num currentPrice)) (num 1)) (num 100)
        { recommendation := some "HOLD"
          reason := some "Technical indicators show neutral signals."
          targetPrice := num (round2 targetPrice)
          upside := jsToFixed1 upside
          confidence := num 50
          note := none }

/-- The JSON object parsed from the LLM text; every field may be absent.
JSON numbers are finite. -/
structure Prediction where
  recommendation : Option String
  reason : Option String
  targetPrice : Option ℚ
  upside : Option ℚ
  confidence : Option ℚ
deriving DecidableEq, Repr

/-- The outcome of the LLM invocation inside `getAIPrediction`: a transport
error (the `fetch` rejects), a non-2xx response (`!response.ok`), content
whose `JSON.parse` fails, or a parsed prediction object. -/
inductive LLMOutcome where
  | transportError
  | badStatus
  | unparseable
  | parsed (p : Prediction)
deriving DecidableEq, Repr

/-- Whether the outcome is one of the three failure cases the `catch`
handles. -/
def llmFailed : LLMOutcome → Bool
  | LLMOutcome.parsed _ => false
  | _ => true

/-- Truncation toward zero, as `parseInt` performs on a numeric string. -/
def truncInt (q : ℚ) : ℤ := if 0 ≤ q then ⌊q⌋ else ⌈q⌉

/-- The idiom `parseInt(x) || 50` on an optional JSON number: truncation toward zero,
with `NaN` (absent) and `0` falling back to `50`. -/
def parseConfidence (c : Option ℚ) : JSNum :=
  match c with
  | some q => if truncInt q ≠ 0 then num ((truncInt q : ℤ) : ℚ) else num 50
  | none => num 50

/-- The read `data.technicalAnalysis?.currentPrice || 0`. -/
def taCurrentPrice (data : Data) : ℚ :=
  match data.technicalAnalysis with
  | some ta => jsOrZero ta.currentPrice
  | none => 0

/-- The `formattedPrediction` object built from a successfully parsed LLM
answer: `targetPrice` and `upside` coerced with `parseFloat(...) || default`,
`confidence` with `parseInt(...) || 50`.  In the source the computed default
upside is a `toFixed(1)` string; only its numeric value is modelled. -/
def formatPrediction (p : Prediction) (currentPrice : ℚ) : Rec :=
  { recommendation := p.recommendation
    reason := p.reason
    targetPrice := num (jsOrQ p.targetPrice currentPrice)
    upside := jsOrQJS p.upside
      (jsToFixed1 (JSNum.mul
        (JSNum.sub (JSNum.div (jsNumOf p.targetPrice) (num currentPrice)) (num 1)) (num 100)))
    confidence := parseConfidence p.confidence
    note := none }

/-- Source function `getAIPrediction(data, symbol)`: the cached model answer wins when
present; otherwise a parsed LLM answer is formatted, and any of the three
failure outcomes falls back to `generateFallbackRecommendation(data)`. -/
def getAIPrediction (cached : Option Rec) (llm : LLMOutcome) (data : Data) : Rec :=
  match cached with
  | some r => r
  | none =>
      match llm with
      | LLMOutcome.parsed p => formatPrediction p (taCurrentPrice data)
      | _ => generateFallbackRecommendation data

/-- The abstract view of a handler response: status code plus the body
fields the claims inspect. -/
structure HandlerResponse where
  statusCode : ℕ
  recommendation : Option Rec
  errorMsg : Option String
deriving DecidableEq, Repr

/-- The second stock-rating handler after both cache tiers missed: a failed
fetch raises and is answered 500; otherwise the fetched data is enriched
with `calculateTechnicals` and answered 200 with the AI (or fallback)
recommendation. -/
def stockRatingRespond (fetched : Option Data) (cachedPrediction : Option Rec)
    (llm : LLMOutcome) : HandlerResponse :=
  match fetched with
  | none => { statusCode := 500, recommendation := none,
              errorMsg := some "Failed to fetch stock data." }
  | some d0 =>
      let d := { d0 with technicalAnalysis := calculateTechnicals d0.priceHistory }
      let p := getAIPrediction cachedPrediction llm d
      { statusCode := 200, recommendation := some p, errorMsg := none }

/-! ## Cache freshness -/

/-- Source function `isDataFresh(timestamp, hoursValid)` with the clock injected:
`(now - timestamp) / (1000 * 60 * 60) < hoursValid`. -/
def isDataFresh (now timestamp hoursValid : ℚ) : Bool :=
  decide ((now - timestamp) / (1000 * 60 * 60) < hoursValid)

/-! ## Earnings endpoint fallback chain (ai-earnings variant with an
endpoint list) -/

/-- A raw earnings-related upstream row; every numeric field may be absent. -/
structure EarningsRow where
  date : ℤ
  eps : Option ℚ
  epsEstimated : Option ℚ
  actualEps : Option ℚ
  estimatedEps : Option ℚ
  revenue : Option ℚ
  revenueEstimated : Option ℚ
  actualRevenue : Option ℚ
  estimatedRevenue : Option ℚ
  surprisePercentage : Option ℚ
deriving DecidableEq, Repr

/-- The normalized earnings row produced by the endpoint mappers. -/
structure MappedEarnings where
  date : ℤ
  symbol : String
  eps : Option ℚ
  epsEstimated : Option ℚ
  revenue : Option ℚ
  revenueEstimated : Option ℚ
  surprisePercentage : Option ℚ
deriving DecidableEq, Repr

/-- The mapper of the historical earnings calendar endpoint (fields pass
through). -/
def mapperCalendar (symbol : String) (item : EarningsRow) : MappedEarnings :=
  { date := item.date, symbol := symbol, eps := item.eps,
    epsEstimated := item.epsEstimated, revenue := item.revenue,
    revenueEstimated := item.revenueEstimated,
    surprisePercentage := item.surprisePercentage }

/-- The mapper of the earnings-surprises endpoint (actual/estimated fields
renamed). -/
def mapperSurprises (symbol : String) (item : EarningsRow) : MappedEarnings :=
  { date := item.date, symbol := symbol, eps := item.actualEps,
    epsEstimated := item.estimatedEps, revenue := item.actualRevenue,
    revenueEstimated := item.estimatedRevenue,
    surprisePercentage := item.surprisePercentage }

/-- The mapper of the income-statement endpoint (estimates and surprise set
to `null`). -/
def mapperIncome (symbol : String) (item : EarningsRow) : MappedEarnings :=
  { date := item.date, symbol := symbol, eps := item.eps,
    epsEstimated := none, revenue := item.revenue,
    revenueEstimated := none, surprisePercentage := none }

/-- The outcome of fetching one endpoint: `failed` covers a thrown fetch, a
non-ok response and a non-array body (all of which make the loop continue);
`array` is a parsed JSON array. -/
inductive FetchOutcome (α : Type) where
  | failed
  | array (rows : List α)
deriving DecidableEq, Repr

/-- Whether an outcome makes the fallback loop continue to the next
endpoint: failure, or an array without elements. -/
def outcomeSkipped {α : Type} : FetchOutcome α → Bool
  | FetchOutcome.failed => true
  | FetchOutcome.array [] => true
  | FetchOutcome.array (_ :: _) => false

/-- The endpoint fallback loop
(`for (const endpoint of endpoints) { ... break; }`): each endpoint is a
pair of its fetch outcome and its mapper.  Returns the mapped rows of the
first endpoint whose outcome is a non-empty array, together with the number
of endpoints actually fetched. -/
def tryEndpoints {α β : Type} (endpoints : List (FetchOutcome α × (α → β))) :
    List β × ℕ :=
  match endpoints with
  | [] => ([], 0)
  | (outcome, mapper) :: rest =>
      match outcome with
      | FetchOutcome.array (r :: rs) => ((r :: rs).map mapper, 1)
      | _ =>
          let tail := tryEndpoints rest
          (tail.1, tail.2 + 1)

/-! ## Request validation prefixes of the handlers (missing-parameter
behaviour) -/

/-- A handler response reduced to the fields the claims inspect: status code
and the `error` string of the JSON body, when present. -/
structure HttpResponse where
  statusCode : ℕ
  errorField : Option String
deriving DecidableEq, Repr

/-- The result of a validation prefix: either an early response, or control
proceeds into the body of the handler with the validated value. -/
inductive HandlerStage where
  | respond (r : HttpResponse)
  | proceed (value : String)
deriving DecidableEq, Repr

/-- JavaScript string truthiness on an optional query parameter: absent and
empty strings are falsy. -/
def strTruthy : Option String → Bool
  | none => false
  | some s => decide (s ≠ "")

/-- The validation prefix of the second stock-rating handler:
`OPTIONS` preflight, then
`if (!symbol) return createResponse(400, ..., { error: ... })`, then the
symbol is uppercased. -/
def aiRatingValidate (httpMethod : String) (qsSymbol : Option String) : HandlerStage :=
  if httpMethod = "OPTIONS" then HandlerStage.respond ⟨204, none⟩
  else if strTruthy qsSymbol = false then
    HandlerStage.respond ⟨400, some "Symbol is required."⟩
  else HandlerStage.proceed ((qsSymbol.getD "").toUpper)

/-- The symbol resolution of the ai-earnings handlers: query parameter,
then the last URL path segment (when nonempty and not the function name),
then the referer parameters `symbol || ticker`. -/
def aiEarningsSymbol (qsSymbol : Option String) (pathLast : String)
    (refererSymbol refererTicker : Option String) : Option String :=
  if strTruthy qsSymbol then qsSymbol
  else if pathLast ≠ "" ∧ pathLast ≠ "ai-earnings" then some pathLast.toUpper
  else if strTruthy refererSymbol then refererSymbol
  else refererTicker

/-- The validation prefix of the ai-earnings handlers: missing API key is
500; a symbol resolvable from none of the three sources is 400. -/
def aiEarningsValidate (apiKeyConfigured : Bool) (qsSymbol : Option String)
    (pathLast : String) (refererSymbol refererTicker : Option String) : HandlerStage :=
  if apiKeyConfigured = false then
    HandlerStage.respond ⟨500, some "API key is not configured"⟩
  else
    match aiEarningsSymbol qsSymbol pathLast refererSymbol refererTicker with
    | none => HandlerStage.respond
        ⟨400, some "Symbol parameter is required. Please specify in URL parameters or path."⟩
    | some s =>
        if s = "" then HandlerStage.respond
          ⟨400, some "Symbol parameter is required. Please specify in URL parameters or path."⟩
        else HandlerStage.proceed s

/-- The parsed body of the fmp-api and fmp-proxy handlers. -/
structure FmpBody where
  endpoint : Option String
  symbol : Option String
deriving DecidableEq, Repr

/-- The validation prefix of the fmp-api handler: `OPTIONS` preflight, a
body whose `JSON.parse` fails is 400, and a falsy `endpoint` is 400. -/
def fmpApiValidate (httpMethod : String) (body : Option FmpBody) : HandlerStage :=
  if httpMethod = "OPTIONS" then HandlerStage.respond ⟨200, none⟩
  else
    match body with
    | none => HandlerStage.respond ⟨400, some "Invalid request body"⟩
    | some b =>
        if strTruthy b.endpoint = false then
          HandlerStage.respond ⟨400, some "Endpoint parameter is required"⟩
        else HandlerStage.proceed (b.endpoint.getD "")

/-- The validation prefix of the anthropic handler: `OPTIONS` preflight,
missing API key is 500, unparseable body is 400, falsy `prompt` is 400. -/
def anthropicValidate (httpMethod : String) (apiKeyConfigured : Bool)
    (body : Option (Option String)) : HandlerStage :=
  if httpMethod = "OPTIONS" then HandlerStage.respond ⟨200, none⟩
  else if apiKeyConfigured = false then
    HandlerStage.respond ⟨500, some "API key is not configured"⟩
  else
    match body with
    | none => HandlerStage.respond ⟨400, some "Invalid request body"⟩
    | some prompt =>
        if strTruthy prompt = false then
          HandlerStage.respond ⟨400, some "Prompt parameter is required"⟩
        else HandlerStage.proceed (prompt.getD "")

/-- The validation prefix of the benzinga-earnings handler: `OPTIONS`
preflight, then a falsy `symbol` query parameter is 400 (before the API-key
check). -/
def benzingaEarningsValidate (httpMethod : String) (qsSymbol : Option String) : HandlerStage :=
  if httpMethod = "OPTIONS" then HandlerStage.respond ⟨200, none⟩
  else if strTruthy qsSymbol = false then
    HandlerStage.respond ⟨400, some "Missing required parameter: symbol"⟩
  else HandlerStage.proceed (qsSymbol.getD "")

/-- The whole fmp-proxy handler (the variant without any validation):
`JSON.parse(event.body)` throwing, or the upstream request failing, are both
caught by the single `catch` and answered 500; a successful upstream call is
answered 200.  The `endpoint` parameter is interpolated into the URL but
never validated. -/
def fmpProxyHandler (body : Option FmpBody) (upstream : Except String Unit) : HttpResponse :=
  match body with
  | none => ⟨500, some "Unexpected token u in JSON at position 0"⟩
  | some _ =>
      match upstream with
      | Except.ok _ => ⟨200, none⟩
      | Except.error msg => ⟨500, some msg⟩

/-! ## Theorems -/

/-- The `x || 0` idiom on a finite number is extensionally the identity. -/
theorem jsOrZero_eq (q : ℚ) : jsOrZero q = q := by
  unfold jsOrZero
  by_cases h : q = 0 <;> simp [h]

/-- C7.  The claim says a zero or missing `totalAssets` (respectively
`totalCurrentLiabilities`) makes the derived ratio absent, not a computed
value.  The code disagrees: `extractEssentialBalanceSheet` computes
`totalDebt / totalAssets` unguarded, yielding `Infinity` on a zero
denominator and `NaN` on a missing one, and the first handler response
shaping maps a non-positive denominator to the number `0`.  This theorem
evaluates both functions at those failing inputs. -/
theorem zero_denominator_ratio_computed :
    (extractEssentialBalanceSheet
        (some ⟨0, some 1, some 0, some 2, some 5, some 3, some 0⟩)).map
        EssentialBalanceSheet.debtToAssets = some JSNum.inf ∧
    (extractEssentialBalanceSheet
        (some ⟨0, some 1, some 0, some 2, some 5, some 3, some 0⟩)).map
        EssentialBalanceSheet.currentRatio = some JSNum.inf ∧
    (extractEssentialBalanceSheet
        (some ⟨0, some 1, none, some 2, some 5, none, none⟩)).map
        EssentialBalanceSheet.debtToAssets = some JSNum.nan ∧
    (responseBalanceSheet
        (some ⟨0, some 1, some 0, some 2, some 5, some 3, some 0⟩)).map
        RespBalanceSheet.debtToAssets = some (num 0) ∧
    (responseBalanceSheet
        (some ⟨0, some 1, some 0, some 2, some 5, some 3, some 0⟩)).map
        RespBalanceSheet.currentRatio = some (num 0) := by
  norm_num [extractEssentialBalanceSheet, responseBalanceSheet, jsNumOf, jsGtZero,
    JSNum.div, JSNum.gt, JSNum.lt]

/-- C8.  `isDataFresh` is true exactly when the elapsed milliseconds are
strictly below `hoursValid` hours, and in particular a timestamp one hour
old is fresh against a 24-hour limit while one 25 hours old is not, for
every clock value. -/
theorem isDataFresh_iff (now timestamp hoursValid : ℚ) :
    (isDataFresh now timestamp hoursValid = true ↔
      now - timestamp < hoursValid * 3600000) ∧
    isDataFresh now (now - 1 * 3600000) 24 = true ∧
    isDataFresh now (now - 25 * 3600000) 24 = false := by
  have h0 : (0:ℚ) < 1000 * 60 * 60 := by norm_num
  refine ⟨?_, ?_, ?_⟩
  · rw [isDataFresh, decide_eq_true_eq, div_lt_iff₀ h0]
    norm_num
  · rw [isDataFresh, decide_eq_true_eq, div_lt_iff₀ h0]
    ring_nf
    norm_num
  · rw [isDataFresh]
    rw [decide_eq_false_iff_not]
    rw [div_lt_iff₀ h0]
    ring_nf
    norm_num

/-- Witness for C8 at a concrete clock value. -/
theorem isDataFresh_iff_witness :
    isDataFresh 7200000 (7200000 - 1 * 3600000) 24 = true ∧
    isDataFresh 7200000 (7200000 - 25 * 3600000) 24 = false :=
  ⟨(isDataFresh_iff 7200000 0 0).2.1, (isDataFresh_iff 7200000 0 0).2.2⟩

/-- C9 counterexample.  The two textual definitions of
`calculatePercentChange` disagree on the same input: on the newest-first
array `[110, 100, 90]` with `days = 1` the first returns `+10` and the
second `-10`, and at `length = days` the first returns `null` while the
second reads out of bounds and returns `NaN`.  They are therefore not
extensionally equal. -/
theorem percentChange_defs_differ_cex :
    calculatePercentChangeFirst [110, 100, 90] 1 = some (num 10) ∧
    calculatePercentChangeSecond [110, 100, 90] 1 = some (num (-10)) ∧
    calculatePercentChangeFirst [110, 100, 90] 1 ≠
      calculatePercentChangeSecond [110, 100, 90] 1 ∧
    calculatePercentChangeFirst [100] 1 = none ∧
    calculatePercentChangeSecond [100] 1 = some JSNum.nan := by
  norm_num [calculatePercentChangeFirst, calculatePercentChangeSecond, jsIdx, jsNumOf,
    JSNum.mul, JSNum.div, JSNum.sub, JSNum.neg, JSNum.add, Int.toNat]

/-- C9 (amended).  The two definitions are not extensionally equal; what
does hold is that on arrays long enough for both guards the second
definition computes the first definition applied to the reversed array. -/
theorem percentChange_second_eq_first_reversed (prices : List ℚ) (days : ℕ)
    (h : days + 1 ≤ prices.length) :
    calculatePercentChangeSecond prices days =
      calculatePercentChangeFirst prices.reverse days := by
  unfold calculatePercentChangeSecond calculatePercentChangeFirst
  rw [List.length_reverse]
  rw [if_neg (by omega), if_neg (by omega)]
  have h1 : jsIdx prices ((prices.length : ℤ) - 1) = jsIdx prices.reverse 0 := by
    rw [jsIdx, jsIdx, if_pos (by omega), if_pos (by omega)]
    rw [List.getElem?_reverse (by omega : Int.toNat 0 < prices.length)]
    have he : ((prices.length : ℤ) - 1).toNat = prices.length - 1 - Int.toNat 0 := by omega
    rw [he]
  have h2 : jsIdx prices ((prices.length : ℤ) - 1 - days) = jsIdx prices.reverse days := by
    rw [jsIdx, jsIdx, if_pos (by omega), if_pos (by omega)]
    rw [List.getElem?_reverse (by omega : Int.toNat days < prices.length)]
    have he : ((prices.length : ℤ) - 1 - days).toNat = prices.length - 1 - Int.toNat days := by
      omega
    rw [he]
  rw [h1, h2]

/-- Witness for the amended C9 at a concrete input. -/
theorem percentChange_second_eq_first_reversed_witness :
    calculatePercentChangeSecond [110, 100, 90] 1 =
      calculatePercentChangeFirst (List.reverse [110, 100, 90]) 1 :=
  percentChange_second_eq_first_reversed [110, 100, 90] 1 (by norm_num)

/-- C3.  In the endpoint fallback loop, if every endpoint before position
`i` is skipped (failed, non-array or empty array) and endpoint `i` returns a
non-empty array, the loop returns exactly the rows of endpoint `i` passed
through its mapper, and fetches exactly `i + 1` endpoints (so no endpoint
after `i` is ever invoked). -/
theorem fallback_chain_first_nonempty {α β : Type}
    (endpoints : List (FetchOutcome α × (α → β))) (i : ℕ) (hi : i < endpoints.length)
    (hskip : ∀ j (hj : j < i),
      outcomeSkipped (endpoints.get ⟨j, lt_trans hj hi⟩).1 = true)
    (rows : List α) (hrows : rows ≠ [])
    (hsucc : (endpoints.get ⟨i, hi⟩).1 = FetchOutcome.array rows) :
    (tryEndpoints endpoints).1 = rows.map (endpoints.get ⟨i, hi⟩).2 ∧
    (tryEndpoints endpoints).2 = i + 1 := by
  induction endpoints generalizing i with
  | nil => exact absurd hi (by simp)
  | cons hd rest ih =>
      obtain ⟨o, m⟩ := hd
      cases i with
      | zero =>
          simp only [List.get] at hsucc
          cases rows with
          | nil => exact absurd rfl hrows
          | cons r rs =>
              subst hsucc
              simp [tryEndpoints]
      | succ k =>
          have hskip0 := hskip 0 (Nat.succ_pos k)
          simp only [List.get] at hskip0
          have hk : k < rest.length := by
            simpa [Nat.succ_lt_succ_iff] using hi
          have ihk := ih k hk
            (fun j hj => by
              have := hskip (j + 1) (Nat.succ_lt_succ hj)
              simpa using this)
            (by simpa using hsucc)
          cases ho : o with
          | failed =>
              subst ho
              simp only [tryEndpoints]
              refine ⟨?_, ?_⟩
              · rw [ihk.1]
                congr 1
              · rw [ihk.2]
          | array l =>
              cases l with
              | nil =>
                  subst ho
                  simp only [tryEndpoints]
                  refine ⟨?_, ?_⟩
                  · rw [ihk.1]
                    congr 1
                  · rw [ihk.2]
              | cons x xs =>
                  rw [ho] at hskip0
                  simp [outcomeSkipped] at hskip0

/-- Witness for C3: the first endpoint returns an empty array, the second
one record, the third one record; the aggregated result is the second
endpoint record under its mapper and only two of the three endpoints were
fetched. -/
theorem fallback_chain_first_nonempty_witness :
    (tryEndpoints
        [(FetchOutcome.array [], mapperCalendar "AAPL"),
         (FetchOutcome.array [⟨100, none, none, some 2, some 3, none, none, some 42, some 40, some 7⟩],
           mapperSurprises "AAPL"),
         (FetchOutcome.array [⟨90, some 1, none, none, none, some 5, none, none, none, none⟩],
           mapperIncome "AAPL")]).1
      = [mapperSurprises "AAPL" ⟨100, none, none, some 2, some 3, none, none, some 42, some 40, some 7⟩] ∧
    (tryEndpoints
        [(FetchOutcome.array [], mapperCalendar "AAPL"),
         (FetchOutcome.array [⟨100, none, none, some 2, some 3, none, none, some 42, some 40, some 7⟩],
           mapperSurprises "AAPL"),
         (FetchOutcome.array [⟨90, some 1, none, none, none, some 5, none, none, none, none⟩],
           mapperIncome "AAPL")]).2 = 2 ∧ 2 < 3 := by
  have h := fallback_chain_first_nonempty
    [(FetchOutcome.array [], mapperCalendar "AAPL"),
     (FetchOutcome.array [⟨100, none, none, some 2, some 3, none, none, some 42, some 40, some 7⟩],
       mapperSurprises "AAPL"),
     (FetchOutcome.array [⟨90, some 1, none, none, none, some 5, none, none, none, none⟩],
       mapperIncome "AAPL")] 1 (by norm_num)
    (fun j hj => by
      have hj0 : j = 0 := by omega
      subst hj0
      rfl)
    [⟨100, none, none, some 2, some 3, none, none, some 42, some 40, some 7⟩]
    (by simp) rfl
  refine ⟨?_, h.2, by norm_num⟩
  rw [h.1]
  rfl

/-- When `avgLoss` is exactly zero and `avgGain` positive, the JavaScript
arithmetic of the RSI formula collapses to exactly 100:
`rs` is `Infinity`, `100 / (1 + Infinity)` is `0`. -/
theorem rsiOf_pos_zero (g : ℚ) (hg : 0 < g) : rsiOf g 0 = num 100 := by
  have hne : ¬ g < 0 := by linarith
  norm_num [rsiOf, JSNum.div, JSNum.add, JSNum.sub, JSNum.neg, hg, hne]

/-- Over a run of non-negative changes the Wilder fold keeps the average
loss at exactly zero, and keeps the average gain positive as soon as either
the seed was positive or some change in the run is positive. -/
theorem wilderFold_pure_gain (period : ℚ) (hp : 1 < period) :
    ∀ (rest : List ℚ) (aG : ℚ), (∀ c ∈ rest, 0 ≤ c) → 0 ≤ aG →
      (0 < aG ∨ ∃ c ∈ rest, 0 < c) →
      (rest.foldl (wilderStep period) (aG, 0)).2 = 0 ∧
      0 < (rest.foldl (wilderStep period) (aG, 0)).1 := by
  intro rest
  induction rest with
  | nil =>
      intro aG _ _ hpos
      rcases hpos with h | ⟨c, hc, _⟩
      · exact ⟨rfl, h⟩
      · exact absurd hc (List.not_mem_nil c)
  | cons c cs ih =>
      intro aG hall hG hpos
      have hc : 0 ≤ c := hall c (List.mem_cons_self c cs)
      have hper : (0:ℚ) < period := by linarith
      have hstep : wilderStep period (aG, 0) c = ((aG * (period - 1) + c) / period, 0) := by
        simp [wilderStep, hc]
      rw [List.foldl_cons, hstep]
      have htail : ∀ x ∈ cs, 0 ≤ x := fun x hx => hall x (List.mem_cons_of_mem c hx)
      have hG1 : 0 ≤ (aG * (period - 1) + c) / period :=
        div_nonneg (add_nonneg (mul_nonneg hG (by linarith)) hc) (le_of_lt hper)
      apply ih ((aG * (period - 1) + c) / period) htail hG1
      rcases hpos with hag | ⟨x, hx, hxpos⟩
      · left
        exact div_pos (by nlinarith) hper
      · rcases List.mem_cons.mp hx with hx0 | hxs
        · left
          subst hx0
          exact div_pos (by nlinarith) hper
        · right
          exact ⟨x, hxs, hxpos⟩

/-- If every element of a list is non-negative then the gains accumulator of
the RSI seed loop is non-negative. -/
theorem seedGains_nonneg (l : List ℚ) :
    0 ≤ ((l.map (fun c => if 0 ≤ c then c else 0)).sum) := by
  apply List.sum_nonneg
  intro x hx
  obtain ⟨c, _, rfl⟩ := List.mem_map.mp hx
  by_cases h : 0 ≤ c <;> simp [h]

/-- If every element of a list is non-negative then the losses accumulator
of the RSI seed loop is exactly zero. -/
theorem seedLosses_zero (l : List ℚ) (h : ∀ c ∈ l, 0 ≤ c) :
    ((l.map (fun c => if 0 ≤ c then 0 else -c)).sum) = 0 := by
  apply List.sum_eq_zero
  intro x hx
  obtain ⟨c, hc, rfl⟩ := List.mem_map.mp hx
  simp [h c hc]

/-- A non-negative list with a positive member has a positive gains sum. -/
theorem seedGains_pos (l : List ℚ) (c : ℚ) (hc : c ∈ l)
    (hpos : 0 < c) : 0 < ((l.map (fun c => if 0 ≤ c then c else 0)).sum) := by
  have hcm : c ∈ l.map (fun c => if 0 ≤ c then c else 0) := by
    have : (if 0 ≤ c then c else 0) = c := by simp [le_of_lt hpos]
    rw [← this]
    exact List.mem_map_of_mem _ hc
  have hle : c ≤ (l.map (fun c => if 0 ≤ c then c else 0)).sum := by
    apply List.single_le_sum _ _ hcm
    intro x hx
    obtain ⟨y, _, rfl⟩ := List.mem_map.mp hx
    by_cases h : 0 ≤ y <;> simp [h]
  linarith

/-- C1 counterexample.  A constant price series of length 15 has every
consecutive change non-negative (all are zero), yet `calculateRSI` returns
`NaN` (both averages are zero, so `rs = 0 / 0 = NaN`), not 100. -/
theorem rsi_constant_series_nan :
    15 ≤ (List.replicate 15 (5:ℚ)).length ∧
    (∀ c ∈ priceChanges (List.replicate 15 (5:ℚ)), 0 ≤ c) ∧
    calculateRSI (List.replicate 15 (5:ℚ)) 14 = some JSNum.nan ∧
    calculateRSI (List.replicate 15 (5:ℚ)) 14 ≠ some (num 100) := by
  have hnan : calculateRSI (List.replicate 15 (5:ℚ)) 14 = some JSNum.nan := by
    norm_num [calculateRSI, priceChanges, wilderStep, rsiOf, JSNum.div, JSNum.add,
      JSNum.sub, JSNum.neg, List.replicate, List.zipWith]
  refine ⟨by norm_num, ?_, hnan, ?_⟩
  · intro c hc
    norm_num [priceChanges, List.replicate, List.zipWith] at hc
    simp [hc]
  · rw [hnan]
    simp

/-- C1 (amended).  For every chronologically ordered close series of length
at least 15 in which every consecutive change is non-negative and at least
one change is positive (the series is not constant), `calculateRSI` with
period 14 returns exactly 100 — no `NaN` and no exception. -/
theorem rsi_pure_uptrend (prices : List ℚ)
    (hlen : 15 ≤ prices.length)
    (hmono : ∀ c ∈ priceChanges prices, 0 ≤ c)
    (hpos : ∃ c ∈ priceChanges prices, 0 < c) :
    calculateRSI prices 14 = some (num 100) := by
  unfold calculateRSI
  rw [if_neg (by omega)]
  have hseed : ∀ c ∈ (priceChanges prices).take 14, 0 ≤ c :=
    fun c hc => hmono c (List.mem_of_mem_take hc)
  have hdrop : ∀ c ∈ (priceChanges prices).drop 14, 0 ≤ c :=
    fun c hc => hmono c (List.mem_of_mem_drop hc)
  have hlosses : (((priceChanges prices).take 14).map (fun c => if 0 ≤ c then 0 else -c)).sum
      / (14 : ℚ) = 0 := by
    rw [seedLosses_zero _ hseed]
    norm_num
  have hgains0 : 0 ≤ (((priceChanges prices).take 14).map
      (fun c => if 0 ≤ c then c else 0)).sum / (14 : ℚ) :=
    div_nonneg (seedGains_nonneg _) (by norm_num)
  have hdisj : 0 < (((priceChanges prices).take 14).map
        (fun c => if 0 ≤ c then c else 0)).sum / (14 : ℚ) ∨
      ∃ c ∈ (priceChanges prices).drop 14, 0 < c := by
    obtain ⟨c, hc, hcpos⟩ := hpos
    rw [← List.take_append_drop 14 (priceChanges prices)] at hc
    rcases List.mem_append.mp hc with hctake | hcdrop
    · left
      exact div_pos (seedGains_pos _ c hctake hcpos) (by norm_num)
    · right
      exact ⟨c, hcdrop, hcpos⟩
  have hcast : ((14 : ℕ) : ℚ) = (14 : ℚ) := by norm_num
  show some (rsiOf
      (List.foldl (wilderStep ((14 : ℕ) : ℚ))
        ((((priceChanges prices).take 14).map (fun c => if 0 ≤ c then c else 0)).sum
            / ((14 : ℕ) : ℚ),
         (((priceChanges prices).take 14).map (fun c => if 0 ≤ c then 0 else -c)).sum
            / ((14 : ℕ) : ℚ))
        ((priceChanges prices).drop 14)).1
      (List.foldl (wilderStep ((14 : ℕ) : ℚ))
        ((((priceChanges prices).take 14).map (fun c => if 0 ≤ c then c else 0)).sum
            / ((14 : ℕ) : ℚ),
         (((priceChanges prices).take 14).map (fun c => if 0 ≤ c then 0 else -c)).sum
            / ((14 : ℕ) : ℚ))
        ((priceChanges prices).drop 14)).2) = some (num 100)
  rw [hcast, hlosses]
  have hfold := wilderFold_pure_gain 14 (by norm_num) ((priceChanges prices).drop 14)
    _ hdrop hgains0 hdisj
  rw [hfold.1]
  rw [rsiOf_pos_zero _ hfold.2]

/-- Witness for the amended C1: a strictly increasing 15-price series. -/
theorem rsi_pure_uptrend_witness :
    calculateRSI [0, 1, 2, 3, 4, 5, 6, 7, 8, 9, 10, 11, 12, 13, 14] 14 = some (num 100) := by
  apply rsi_pure_uptrend
  · norm_num
  · intro c hc
    norm_num [priceChanges, List.zipWith] at hc
    rw [hc]
    norm_num
  · refine ⟨1, ?_, by norm_num⟩
    norm_num [priceChanges, List.zipWith]

/-- The bars produced by `extractPriceHistory` on present historical data
with a quote: the sorted list, merged when the quote price is truthy. -/
theorem extractPriceHistory_bars_some (historical : List PriceBar) (q : Quote)
    (today : ℤ) :
    (extractPriceHistory (some historical) (some q) today).bars =
      if q.price ≠ 0 then mergeQuote (List.insertionSort dateGe historical) q today
      else List.insertionSort dateGe historical := rfl

/-- The bars produced by `extractPriceHistory` without a quote: just the
sorted historical list. -/
theorem extractPriceHistory_bars_none (historical : List PriceBar) (today : ℤ) :
    (extractPriceHistory (some historical) none today).bars =
      List.insertionSort dateGe historical := rfl

/-- C4.  For a live quote with a truthy price: when every historical bar is
dated strictly before today (so the most recent bar is not dated today) the
merged series is exactly one bar longer and its new leading bar carries the
quote price and date today; and when the sorted series leads with a bar
dated today whose close differs from the quote price by more than `0.01`,
that bar close (and, when the quote has a truthy volume, its volume) is
overwritten and the length is unchanged. -/
theorem extractPriceHistory_merge (historical : List PriceBar) (q : Quote) (today : ℤ)
    (hq : q.price ≠ 0) :
    ((historical ≠ [] ∧ ∀ b ∈ historical, b.date < today) →
      (extractPriceHistory (some historical) (some q) today).bars.length
          = historical.length + 1 ∧
      ∃ rest, (extractPriceHistory (some historical) (some q) today).bars
          = ⟨today, q.price,
              quoteBarVolume q.volume (List.insertionSort dateGe historical)⟩ :: rest) ∧
    (∀ b rest, List.insertionSort dateGe historical = b :: rest → b.date = today →
      |b.close - q.price| > 1 / 100 →
      (extractPriceHistory (some historical) (some q) today).bars
          = ⟨b.date, q.price, jsOrQ q.volume b.volume⟩ :: rest ∧
      (extractPriceHistory (some historical) (some q) today).bars.length
          = historical.length) := by
  have hperm := List.perm_insertionSort dateGe historical
  have hlen : (List.insertionSort dateGe historical).length = historical.length :=
    hperm.length_eq
  have hbars := extractPriceHistory_bars_some historical q today
  rw [if_pos hq] at hbars
  constructor
  · rintro ⟨hne, hlt⟩
    have hsne : List.insertionSort dateGe historical ≠ [] := by
      intro h0
      rw [h0] at hlen
      exact hne (List.length_eq_zero.mp hlen.symm)
    obtain ⟨b, rest, hs⟩ := List.exists_cons_of_ne_nil hsne
    have hbmem : b ∈ historical := hperm.mem_iff.mp (hs ▸ List.mem_cons_self b rest)
    have hbdate : b.date ≠ today := ne_of_lt (hlt b hbmem)
    rw [hbars, hs]
    rw [mergeQuote, if_pos hbdate]
    refine ⟨?_, b :: rest, by rw [← hs]⟩
    simp only [List.length_cons]
    have hl2 : rest.length + 1 = historical.length := by
      have hx := hlen
      rw [hs] at hx
      simpa using hx
    omega
  · intro b rest hs hbd hclose
    rw [hbars, hs, mergeQuote]
    rw [if_neg (by simpa using hbd), if_pos hclose]
    refine ⟨rfl, ?_⟩
    have : (b :: rest).length = historical.length := by rw [← hs, hlen]
    simpa using this

/-- Witness for C4 at concrete inputs: a one-bar history dated yesterday
with a quote (part one), and a one-bar history dated today with a price
differing by more than a cent (part two). -/
theorem extractPriceHistory_merge_witness :
    (extractPriceHistory (some [⟨0, 10, 100⟩]) (some ⟨11, some 5, none, none⟩) 1).bars.length
        = 2 ∧
    (∃ rest, (extractPriceHistory (some [⟨0, 10, 100⟩]) (some ⟨11, some 5, none, none⟩) 1).bars
        = ⟨1, 11, quoteBarVolume (some 5) (List.insertionSort dateGe [⟨0, 10, 100⟩])⟩ :: rest) ∧
    (extractPriceHistory (some [⟨1, 10, 100⟩]) (some ⟨11, some 5, none, none⟩) 1).bars
        = [⟨1, 11, jsOrQ (some 5) 100⟩] ∧
    (extractPriceHistory (some [⟨1, 10, 100⟩]) (some ⟨11, some 5, none, none⟩) 1).bars.length
        = 1 := by
  have h1 := extractPriceHistory_merge [⟨0, 10, 100⟩] ⟨11, some 5, none, none⟩ 1
    (by norm_num)
  have h2 := extractPriceHistory_merge [⟨1, 10, 100⟩] ⟨11, some 5, none, none⟩ 1
    (by norm_num)
  have hp1 := h1.1 ⟨by simp, by
    intro b hb
    simp at hb
    rw [hb]
    norm_num⟩
  have hp2 := h2.2 ⟨1, 10, 100⟩ [] rfl rfl (by norm_num)
  exact ⟨hp1.1, hp1.2, hp2.1, hp2.2⟩

/-- In a list sorted newest first the last element has the minimal date. -/
theorem sorted_last_min (l : List PriceBar) (hs : List.Sorted dateGe l) (b : PriceBar)
    (hb : l.getLast? = some b) : ∀ x ∈ l, b.date ≤ x.date := by
  induction l with
  | nil => cases hb
  | cons a t ih =>
      cases t with
      | nil =>
          intro x hx
          simp at hb hx
          rw [hx, hb]
      | cons c t' =>
          have hcons := List.sorted_cons.mp hs
          have hb' : (c :: t').getLast? = some b := by
            rw [List.getLast?_cons_cons] at hb
            exact hb
          have ihb := ih hcons.2 hb'
          intro x hx
          rcases List.mem_cons.mp hx with rfl | hxt
          · have hbmem : b ∈ c :: t' := List.mem_of_getLast?_eq_some hb'
            exact hcons.1 b hbmem
          · exact ihb x hxt

/-- The merged series stays sorted newest first provided no historical bar
is dated after today. -/
theorem mergeQuote_sorted (sorted : List PriceBar) (q : Quote) (today : ℤ)
    (hs : List.Sorted dateGe sorted) (hmem : ∀ x ∈ sorted, x.date ≤ today) :
    List.Sorted dateGe (mergeQuote sorted q today) := by
  cases sorted with
  | nil => exact List.sorted_singleton _
  | cons b rest =>
      rw [mergeQuote]
      by_cases hd : b.date ≠ today
      · rw [if_pos hd]
        exact List.sorted_cons.mpr ⟨fun y hy => hmem y hy, hs⟩
      · rw [if_neg hd]
        by_cases hclose : |b.close - q.price| > 1 / 100
        · rw [if_pos hclose]
          have hcons := List.sorted_cons.mp hs
          exact List.sorted_cons.mpr ⟨fun y hy => hcons.1 y hy, hcons.2⟩
        · rw [if_neg hclose]
          exact hs

/-- The bars returned by `extractPriceHistory` are sorted newest first
provided no historical bar is dated after today. -/
theorem extractPriceHistory_bars_sorted (historical : List PriceBar) (cq : Option Quote)
    (today : ℤ) (hpast : ∀ b ∈ historical, b.date ≤ today) :
    List.Sorted dateGe (extractPriceHistory (some historical) cq today).bars := by
  have hsort := List.sorted_insertionSort dateGe historical
  have hmem : ∀ x ∈ List.insertionSort dateGe historical, x.date ≤ today := fun x hx =>
    hpast x ((List.perm_insertionSort dateGe historical).mem_iff.mp hx)
  cases cq with
  | none =>
      rw [extractPriceHistory_bars_none]
      exact hsort
  | some q =>
      rw [extractPriceHistory_bars_some]
      by_cases hp : q.price ≠ 0
      · rw [if_pos hp]
        exact mergeQuote_sorted _ q today hsort hmem
      · rw [if_neg hp]
        exact hsort

/-- C10.  The fallback recommendation reads its current price from the
close of the final element of `data.priceHistory`; since
`extractPriceHistory` sorts the series newest first, that is the close of a
bar of minimal date — the oldest bar of the fetched window — and the
returned target price (here in the absent-indicators branch) is derived
from it. -/
theorem fallback_uses_oldest_bar (historical : List PriceBar) (cq : Option Quote)
    (today : ℤ) (d : Data)
    (hpast : ∀ b ∈ historical, b.date ≤ today)
    (hph : d.priceHistory = extractPriceHistory (some historical) cq today)
    (hta : d.technicalAnalysis = none)
    (hne : d.priceHistory.bars ≠ []) :
    ∃ b, d.priceHistory.bars.getLast? = some b ∧
      (generateFallbackRecommendation d).recommendation = some "HOLD" ∧
      (generateFallbackRecommendation d).targetPrice = num b.close ∧
      ∀ x ∈ d.priceHistory.bars, b.date ≤ x.date := by
  have hsome : (d.priceHistory.bars.getLast?).isSome := List.getLast?_isSome.mpr hne
  obtain ⟨b, hb⟩ := Option.isSome_iff_exists.mp hsome
  refine ⟨b, hb, ?_, ?_, ?_⟩
  · simp [generateFallbackRecommendation, hta]
  · have hcp : fallbackCurrentPrice d = b.close := by
      simp [fallbackCurrentPrice, hb, jsOrZero_eq]
    simp [generateFallbackRecommendation, hta, hcp]
  · have hsorted : List.Sorted dateGe d.priceHistory.bars := by
      rw [hph]
      exact extractPriceHistory_bars_sorted historical cq today hpast
    exact sorted_last_min d.priceHistory.bars hsorted b hb

/-- Witness for C10 at a concrete input: a two-bar history, quote present. -/
theorem fallback_uses_oldest_bar_witness :
    ∃ b, (extractPriceHistory (some [⟨0, 7, 50⟩, ⟨1, 9, 60⟩])
            (some ⟨11, none, none, none⟩) 2).bars.getLast? = some b ∧
      (generateFallbackRecommendation
          ⟨none, none,
            extractPriceHistory (some [⟨0, 7, 50⟩, ⟨1, 9, 60⟩]) (some ⟨11, none, none, none⟩) 2,
            none, none⟩).recommendation = some "HOLD" ∧
      (generateFallbackRecommendation
          ⟨none, none,
            extractPriceHistory (some [⟨0, 7, 50⟩, ⟨1, 9, 60⟩]) (some ⟨11, none, none, none⟩) 2,
            none, none⟩).targetPrice = num b.close ∧
      ∀ x ∈ (extractPriceHistory (some [⟨0, 7, 50⟩, ⟨1, 9, 60⟩])
            (some ⟨11, none, none, none⟩) 2).bars, b.date ≤ x.date := by
  apply fallback_uses_oldest_bar [⟨0, 7, 50⟩, ⟨1, 9, 60⟩] (some ⟨11, none, none, none⟩) 2
    ⟨none, none,
      extractPriceHistory (some [⟨0, 7, 50⟩, ⟨1, 9, 60⟩]) (some ⟨11, none, none, none⟩) 2,
      none, none⟩
  · intro b hb
    rcases List.mem_cons.mp hb with rfl | hb'
    · norm_num
    · simp at hb'
      rw [hb']
      norm_num
  · rfl
  · rfl
  · rw [extractPriceHistory_bars_some]
    norm_num [mergeQuote, List.insertionSort, List.orderedInsert, dateGe]
    exact List.cons_ne_nil _ _

/-- C2 (amended).  The decision table of `generateFallbackRecommendation`
on defined (numeric) indicator values, with the target prices as the source
actually computes them: rounded to two decimals by
`parseFloat(x.toFixed(2))`, and the HOLD target taken from `sma50` only
when that field is truthy (present and nonzero). -/
theorem fallback_decision_table (d : Data) :
    (d.technicalAnalysis = none →
      (generateFallbackRecommendation d).recommendation = some "HOLD" ∧
      (generateFallbackRecommendation d).targetPrice = num (fallbackCurrentPrice d) ∧
      (generateFallbackRecommendation d).confidence = num 30) ∧
    (∀ ta, d.technicalAnalysis = some ta →
      ∀ r p1 p3 : ℚ, ta.rsi = some (num r) → ta.priceChange1m = some (num p1) →
        ta.priceChange3m = some (num p3) →
        ((r < 30 ∧ p1 < -5 ∧ p3 < 0 →
          (generateFallbackRecommendation d).recommendation = some "BUY" ∧
          (generateFallbackRecommendation d).targetPrice
              = num (round2 (fallbackCurrentPrice d * (23 / 20))) ∧
          (generateFallbackRecommendation d).confidence = num 60) ∧
        (70 < r ∧ 10 < p1 →
          (generateFallbackRecommendation d).recommendation = some "SELL" ∧
          (generateFallbackRecommendation d).targetPrice
              = num (round2 (fallbackCurrentPrice d * (9 / 10))) ∧
          (generateFallbackRecommendation d).confidence = num 60) ∧
        (¬(r < 30 ∧ p1 < -5 ∧ p3 < 0) → ¬(70 < r ∧ 10 < p1) →
          (generateFallbackRecommendation d).recommendation = some "HOLD" ∧
          (generateFallbackRecommendation d).targetPrice
              = num (round2 (holdTarget ta.sma50 (fallbackCurrentPrice d))) ∧
          (generateFallbackRecommendation d).confidence = num 50))) := by
  constructor
  · intro hta
    simp [generateFallbackRecommendation, hta]
  · intro ta hta r p1 p3 hr hp1 hp3
    have e1 : jsLtVal ta.rsi 30 = decide (r < 30) := by
      simp [jsLtVal, jsValNum, hr, JSNum.lt]
    have e2 : jsLtVal ta.priceChange1m (-5) = decide (p1 < -5) := by
      simp [jsLtVal, jsValNum, hp1, JSNum.lt]
    have e3 : jsLtVal ta.priceChange3m 0 = decide (p3 < 0) := by
      simp [jsLtVal, jsValNum, hp3, JSNum.lt]
    have e4 : jsGtVal ta.rsi 70 = decide (70 < r) := by
      simp [jsGtVal, jsValNum, hr, JSNum.gt, JSNum.lt]
    have e5 : jsGtVal ta.priceChange1m 10 = decide (10 < p1) := by
      simp [jsGtVal, jsValNum, hp1, JSNum.gt, JSNum.lt]
    refine ⟨?_, ?_, ?_⟩
    · rintro ⟨h1, h2, h3⟩
      have hc1 : (jsLtVal ta.rsi 30 && jsLtVal ta.priceChange1m (-5) &&
          jsLtVal ta.priceChange3m 0) = true := by
        rw [e1, e2, e3]
        simp [h1, h2, h3]
      simp [generateFallbackRecommendation, hta, hc1]
    · rintro ⟨h1, h2⟩
      have hc1 : (jsLtVal ta.rsi 30 && jsLtVal ta.priceChange1m (-5) &&
          jsLtVal ta.priceChange3m 0) = false := by
        rw [e1]
        have hn : ¬ (r < 30) := by linarith
        simp [hn]
      have hc2 : (jsGtVal ta.rsi 70 && jsGtVal ta.priceChange1m 10) = true := by
        rw [e4, e5]
        simp [h1, h2]
      simp [generateFallbackRecommendation, hta, hc1, hc2]
    · intro hn1 hn2
      have hc1 : (jsLtVal ta.rsi 30 && jsLtVal ta.priceChange1m (-5) &&
          jsLtVal ta.priceChange3m 0) = false := by
        rw [e1, e2, e3, Bool.eq_false_iff]
        simpa [Bool.and_eq_true, decide_eq_true_eq, and_assoc] using hn1
      have hc2 : (jsGtVal ta.rsi 70 && jsGtVal ta.priceChange1m 10) = false := by
        rw [e4, e5, Bool.eq_false_iff]
        simpa [Bool.and_eq_true, decide_eq_true_eq] using hn2
      simp [generateFallbackRecommendation, hta, hc1, hc2]

/-- Indicator record of the spec example: rsi 25, one-month change -8,
three-month change -3. -/
def buyWitnessTA : TechAnalysis :=
  ⟨some (num 25), none, none, none, none, some (num (-8)), some (num (-3)), none,
    JSNum.nan, JSNum.nan, JSNum.nan, JSNum.nan, 100⟩

/-- Data record of the spec example, with current price 100 (the single
price bar is both the newest and the oldest). -/
def buyWitnessData : Data :=
  ⟨none, none, ⟨[⟨0, 100, 0⟩], none, none⟩, none, some buyWitnessTA⟩

/-- Witness for the amended C2: the spec example
(rsi 25, one-month -8, three-month -3, price 100) yields BUY with target
115.00 and confidence 60. -/
theorem fallback_decision_table_witness :
    (generateFallbackRecommendation buyWitnessData).recommendation = some "BUY" ∧
    (generateFallbackRecommendation buyWitnessData).targetPrice = num 115 ∧
    (generateFallbackRecommendation buyWitnessData).confidence = num 60 := by
  have h := ((fallback_decision_table buyWitnessData).2 buyWitnessTA rfl 25 (-8) (-3)
    rfl rfl rfl).1 (by norm_num)
  refine ⟨h.1, ?_, h.2.2⟩
  rw [h.2.1]
  norm_num [fallbackCurrentPrice, buyWitnessData, jsOrZero, round2]

/-- Same indicator values as the spec example but with current price 0.01. -/
def roundCexTA : TechAnalysis :=
  ⟨some (num 25), none, none, none, none, some (num (-8)), some (num (-3)), none,
    JSNum.nan, JSNum.nan, JSNum.nan, JSNum.nan, 1 / 100⟩

/-- Data record with a single bar whose close is 0.01. -/
def roundCexData : Data :=
  ⟨none, none, ⟨[⟨0, 1 / 100, 0⟩], none, none⟩, none, some roundCexTA⟩

/-- C2 counterexample.  At current price 0.01 the BUY branch fires (rsi 25,
one-month -8, three-month -3) but the returned target price is
`parseFloat((0.01 * 1.15).toFixed(2)) = 0.01`, not `currentPrice * 1.15 =
0.0115` as the claim states with exact equality. -/
theorem fallback_target_rounded_cex :
    (generateFallbackRecommendation roundCexData).recommendation = some "BUY" ∧
    (generateFallbackRecommendation roundCexData).confidence = num 60 ∧
    (generateFallbackRecommendation roundCexData).targetPrice = num (1 / 100) ∧
    num (1 / 100) ≠ num ((1 / 100) * (23 / 20)) := by
  have hlt : jsLtVal (some (num 25)) 30 = true := by
    norm_num [jsLtVal, jsValNum, JSNum.lt]
  have hlt2 : jsLtVal (some (num (-8))) (-5) = true := by
    norm_num [jsLtVal, jsValNum, JSNum.lt]
  have hlt3 : jsLtVal (some (num (-3))) 0 = true := by
    norm_num [jsLtVal, jsValNum, JSNum.lt]
  refine ⟨?_, ?_, ?_, ?_⟩
  · simp [generateFallbackRecommendation, roundCexData, roundCexTA, hlt, hlt2, hlt3]
  · simp [generateFallbackRecommendation, roundCexData, roundCexTA, hlt, hlt2, hlt3]
  · simp [generateFallbackRecommendation, roundCexData, roundCexTA, hlt, hlt2, hlt3]
    norm_num [fallbackCurrentPrice, roundCexData, jsOrZero, round2]
  · intro h
    rw [JSNum.num.injEq] at h
    norm_num at h

/-- C6 (amended).  Whenever the LLM invocation fails (transport error,
non-2xx, or unparseable JSON content) and both cache tiers missed, the
stock-rating handler still answers 200, surfaces no error, and its
recommendation is exactly the deterministic fallback heuristic result for
the enriched data.  (No degraded-mode note is attached on this path; see
the counterexample.) -/
theorem llm_failure_degrades_to_fallback (d0 : Data) (llm : LLMOutcome)
    (hfail : llmFailed llm = true) :
    (stockRatingRespond (some d0) none llm).statusCode = 200 ∧
    (stockRatingRespond (some d0) none llm).recommendation
        = some (generateFallbackRecommendation
            { d0 with technicalAnalysis := calculateTechnicals d0.priceHistory }) ∧
    (stockRatingRespond (some d0) none llm).errorMsg = none := by
  cases llm with
  | parsed p => simp [llmFailed] at hfail
  | transportError => exact ⟨rfl, rfl, rfl⟩
  | badStatus => exact ⟨rfl, rfl, rfl⟩
  | unparseable => exact ⟨rfl, rfl, rfl⟩

/-- Data record with an empty price history, for the C6 instances. -/
def llmWitnessData : Data := ⟨none, none, ⟨[], none, none⟩, none, none⟩

/-- Witness for the amended C6 at a concrete input. -/
theorem llm_failure_degrades_to_fallback_witness :
    (stockRatingRespond (some llmWitnessData) none LLMOutcome.transportError).statusCode
        = 200 ∧
    (stockRatingRespond (some llmWitnessData) none LLMOutcome.transportError).recommendation
        = some (generateFallbackRecommendation
            { llmWitnessData with
                technicalAnalysis := calculateTechnicals llmWitnessData.priceHistory }) ∧
    (stockRatingRespond (some llmWitnessData) none LLMOutcome.transportError).errorMsg
        = none :=
  llm_failure_degrades_to_fallback llmWitnessData LLMOutcome.transportError rfl

/-- C6 counterexample.  On an LLM transport error the handler answers 200
with the fallback recommendation, but the recommendation carries no note:
its `note` field is absent (`none`), so the claim that the result is
annotated with a degraded-mode note is false on this code path.  (The
degraded-mode note exists only in the separate Anthropic-based handler,
whose fallback is a fixed HOLD at 1.02 times the price, not this
heuristic.) -/
theorem llm_failure_note_missing_cex :
    (stockRatingRespond (some llmWitnessData) none LLMOutcome.transportError).statusCode
        = 200 ∧
    ((stockRatingRespond (some llmWitnessData) none
        LLMOutcome.transportError).recommendation.map Rec.note) = some none ∧
    some (none : Option String) ≠ some (some
      "This is a fallback recommendation due to AI service error.") :=
  ⟨rfl, rfl, by simp⟩

/-- C5 (amended).  Every handler that validates its required parameter
(symbol, endpoint or prompt) answers a request missing that parameter with
status 400 and a JSON body carrying an error string: the second
stock-rating handler, the ai-earnings handlers (symbol missing from query,
path and referer alike), the fmp-api handlers, the anthropic handlers, and
the benzinga-earnings handler.  The fmp-proxy variant is the exception
covered by the counterexample. -/
theorem missing_param_rejected_400 :
    (∀ m s, m ≠ "OPTIONS" → strTruthy s = false →
      aiRatingValidate m s = HandlerStage.respond ⟨400, some "Symbol is required."⟩) ∧
    (∀ qs pl rs rt, (∀ s, aiEarningsSymbol qs pl rs rt = some s → s = "") →
      aiEarningsValidate true qs pl rs rt = HandlerStage.respond
        ⟨400, some "Symbol parameter is required. Please specify in URL parameters or path."⟩) ∧
    (∀ m body, m ≠ "OPTIONS" → (∀ fb, body = some fb → strTruthy fb.endpoint = false) →
      ∃ e, fmpApiValidate m body = HandlerStage.respond ⟨400, some e⟩) ∧
    (∀ m body, m ≠ "OPTIONS" → (∀ p, body = some p → strTruthy p = false) →
      ∃ e, anthropicValidate m true body = HandlerStage.respond ⟨400, some e⟩) ∧
    (∀ m s, m ≠ "OPTIONS" → strTruthy s = false →
      benzingaEarningsValidate m s = HandlerStage.respond
        ⟨400, some "Missing required parameter: symbol"⟩) := by
  refine ⟨?_, ?_, ?_, ?_, ?_⟩
  · intro m s hm hs
    simp [aiRatingValidate, hm, hs]
  · intro qs pl rs rt hres
    cases hcase : aiEarningsSymbol qs pl rs rt with
    | none => simp [aiEarningsValidate, hcase]
    | some s =>
        have hs := hres s hcase
        simp [aiEarningsValidate, hcase, hs]
  · intro m body hm hb
    cases body with
    | none => exact ⟨"Invalid request body", by simp [fmpApiValidate, hm]⟩
    | some fb =>
        have hfb := hb fb rfl
        exact ⟨"Endpoint parameter is required", by simp [fmpApiValidate, hm, hfb]⟩
  · intro m body hm hb
    cases body with
    | none => exact ⟨"Invalid request body", by simp [anthropicValidate, hm]⟩
    | some p =>
        have hp := hb p rfl
        exact ⟨"Prompt parameter is required", by simp [anthropicValidate, hm, hp]⟩
  · intro m s hm hs
    simp [benzingaEarningsValidate, hm, hs]

/-- Witness for the amended C5: concrete missing-parameter requests against
each validating handler. -/
theorem missing_param_rejected_400_witness :
    aiRatingValidate "GET" none = HandlerStage.respond ⟨400, some "Symbol is required."⟩ ∧
    aiEarningsValidate true none "ai-earnings" none none = HandlerStage.respond
      ⟨400, some "Symbol parameter is required. Please specify in URL parameters or path."⟩ ∧
    (∃ e, fmpApiValidate "POST" (some ⟨none, some "AAPL"⟩)
      = HandlerStage.respond ⟨400, some e⟩) ∧
    (∃ e, anthropicValidate "POST" true (some none) = HandlerStage.respond ⟨400, some e⟩) ∧
    benzingaEarningsValidate "GET" none = HandlerStage.respond
      ⟨400, some "Missing required parameter: symbol"⟩ := by
  have h := missing_param_rejected_400
  refine ⟨h.1 "GET" none (by simp) rfl, ?_, ?_, ?_, ?_⟩
  · apply h.2.1
    intro s hs
    simp [aiEarningsSymbol, strTruthy] at hs
  · exact h.2.2.1 "POST" _ (by simp) (fun fb hfb => by cases hfb; rfl)
  · exact h.2.2.2.1 "POST" _ (by simp) (fun p hp => by cases hp; rfl)
  · exact h.2.2.2.2 "GET" none (by simp) rfl

/-- C5 counterexample.  The fmp-proxy variant functionally requires the
`endpoint` body parameter (it is interpolated into the upstream URL) but
never validates it: a request whose body lacks `endpoint` is answered 500
(here with the upstream failure message), and a request with no parseable
body at all is answered 500 from the caught `JSON.parse` exception — never
400. -/
theorem fmp_proxy_no_validation_cex :
    fmpProxyHandler (some ⟨none, none⟩) (Except.error "Request failed with status code 404")
        = ⟨500, some "Request failed with status code 404"⟩ ∧
    fmpProxyHandler none (Except.error "Request failed with status code 404")
        = ⟨500, some "Unexpected token u in JSON at position 0"⟩ ∧
    (500 : ℕ) ≠ 400 :=
  ⟨rfl, rfl, by norm_num⟩

end MarketLinks
